import Mathlib

/-!
Verification of the request-to-query pipeline of a FastAPI + MongoDB backend
serving a bilingual article catalog and a generic item/user inventory.
The Python helpers (excerpt extraction, filter building, pagination flags,
document-to-response projection, handler error surfacing) are shallowly
embedded below; strings are modelled as lists of characters so that slicing
and whitespace splitting match Python character semantics.
-/

namespace BibleArticles

/-- Whitespace test matching Python str.split with no arguments
(space, tab, newline, carriage return, vertical tab, form feed). -/
def isSpaceChar (c : Char) : Bool :=
  c = ' ' || c = '\t' || c = '\n' || c = '\r' || c = '\x0b' || c = '\x0c'

theorem length_dropWhile_le (p : Char → Bool) (l : List Char) :
    (l.dropWhile p).length ≤ l.length := by
  induction l with
  | nil => simp
  | cons a l ih =>
    by_cases h : p a
    · rw [List.dropWhile_cons_of_pos h]
      exact Nat.le_succ_of_le ih
    · rw [List.dropWhile_cons_of_neg h]

theorem length_takeWhile_le (p : Char → Bool) (l : List Char) :
    (l.takeWhile p).length ≤ l.length := by
  induction l with
  | nil => simp
  | cons a l ih =>
    by_cases h : p a
    · rw [List.takeWhile_cons_of_pos h]
      simpa using ih
    · rw [List.takeWhile_cons_of_neg h]
      exact Nat.zero_le _

/-- Python str.split() with no separator: split on runs of whitespace,
discarding empty fragments. -/
def pySplit : List Char → List (List Char)
  | [] => []
  | c :: rest =>
    if isSpaceChar c then pySplit rest
    else (c :: rest.takeWhile (fun x => !isSpaceChar x))
         :: pySplit (rest.dropWhile (fun x => !isSpaceChar x))
termination_by s => s.length
decreasing_by
  · simp only [List.length_cons]
    omega
  · simp only [List.length_cons]
    have := length_dropWhile_le (fun x => !isSpaceChar x) rest
    omega

/-- Python " ".join(words), over character lists. -/
def joinWords : List (List Char) → List Char
  | [] => []
  | [w] => w
  | w :: x :: ws => w ++ ' ' :: joinWords (x :: ws)

/-- A content block as stored in MongoDB: a document whose "type" and
"value" keys may each be absent (the code reads them with dict.get). -/
structure ContentBlock where
  type : Option String
  value : Option (List Char)
deriving DecidableEq

/-- The block test of the excerpt loop:
block.get("type") in ["mainText", "reflection"]. -/
def isExcerptBlock (b : ContentBlock) : Bool :=
  b.type = some "mainText" || b.type = some "reflection"

/-- The ellipsis marker "..." appended on truncation. -/
def ellipsis : List Char := ['.', '.', '.']

/-- extract_excerpt from article_summary_helper in article_main.py: scan for
the first mainText/reflection block; else fall back to the first block;
truncate the chosen value at a word boundary, appending "...". The
truncation body is written out twice, mirroring the source. -/
def extract_excerpt (content_blocks : List ContentBlock) (max_length : Nat) :
    List Char :=
  if content_blocks.isEmpty then []
  else
    match content_blocks.find? isExcerptBlock with
    | some block =>
        let text := block.value.getD []
        if text.length ≤ max_length then text
        else
          let words := pySplit (text.take max_length)
          let words2 := if words.length > 1 then words.dropLast else words
          joinWords words2 ++ ellipsis
    | none =>
        match content_blocks with
        | [] => []
        | block :: _ =>
            let text := block.value.getD []
            if text.length ≤ max_length then text
            else
              let words := pySplit (text.take max_length)
              let words2 := if words.length > 1 then words.dropLast else words
              joinWords words2 ++ ellipsis

/-- The truncation rule on a chosen text, factored out for the statements. -/
def excerptText (text : List Char) (max_length : Nat) : List Char :=
  if text.length ≤ max_length then text
  else
    let words := pySplit (text.take max_length)
    let words2 := if words.length > 1 then words.dropLast else words
    joinWords words2 ++ ellipsis

/-- The selection rule: value of the first mainText/reflection block, else
the first block's value, else empty. -/
def chosenValue (content_blocks : List ContentBlock) : List Char :=
  match content_blocks.find? isExcerptBlock with
  | some b => b.value.getD []
  | none =>
    match content_blocks with
    | [] => []
    | b :: _ => b.value.getD []

theorem extract_excerpt_eq (blocks : List ContentBlock) (mx : Nat) :
    extract_excerpt blocks mx = excerptText (chosenValue blocks) mx := by
  cases blocks with
  | nil => simp [extract_excerpt, chosenValue, excerptText]
  | cons b bs =>
    rw [extract_excerpt, chosenValue]
    cases h : (b :: bs).find? isExcerptBlock with
    | some blk => simp [excerptText]
    | none => simp [excerptText]

theorem dropWhile_head_not (p : Char → Bool) (l : List Char) (hd : Char)
    (tl : List Char) (h : l.dropWhile p = hd :: tl) : p hd = false := by
  induction l with
  | nil => simp [List.dropWhile] at h
  | cons a l ih =>
    by_cases ha : p a
    · rw [List.dropWhile_cons_of_pos ha] at h
      exact ih h
    · rw [List.dropWhile_cons_of_neg ha] at h
      cases h
      simpa using ha

theorem joinWords_dropLast_length_le (ws : List (List Char)) :
    (joinWords ws.dropLast).length ≤ (joinWords ws).length := by
  induction ws with
  | nil => simp
  | cons w ws ih =>
    cases ws with
    | nil => simp [joinWords]
    | cons x ws2 =>
      cases ws2 with
      | nil =>
        simp [joinWords]
      | cons y ws3 =>
        have h1 : (w :: x :: y :: ws3).dropLast = w :: (x :: y :: ws3).dropLast := rfl
        have h2 : (x :: y :: ws3).dropLast = x :: (y :: ws3).dropLast := rfl
        rw [h1, h2, joinWords, ← h2, joinWords]
        simp only [List.length_append, List.length_cons]
        have := ih
        rw [h2] at this
        omega

theorem pySplit_cons_space (c : Char) (rest : List Char)
    (h : isSpaceChar c = true) : pySplit (c :: rest) = pySplit rest := by
  rw [pySplit, if_pos h]

theorem pySplit_cons_of_not_space (c : Char) (rest : List Char)
    (h : isSpaceChar c = false) :
    pySplit (c :: rest) =
      (c :: rest.takeWhile (fun x => !isSpaceChar x))
        :: pySplit (rest.dropWhile (fun x => !isSpaceChar x)) := by
  rw [pySplit]
  simp [h]

theorem joinWords_pySplit_length_le_aux :
    ∀ (n : Nat) (s : List Char), s.length ≤ n →
      (joinWords (pySplit s)).length ≤ s.length := by
  intro n
  induction n with
  | zero =>
    intro s h
    have : s = [] := List.eq_nil_of_length_eq_zero (Nat.le_zero.mp h)
    subst this
    simp [pySplit, joinWords]
  | succ n ih =>
    intro s h
    match s with
    | [] => simp [pySplit, joinWords]
    | c :: rest =>
      have hrest : rest.length ≤ n := by
        simpa [List.length_cons] using Nat.le_of_succ_le_succ h
      by_cases hc : isSpaceChar c
      · rw [pySplit_cons_space c rest hc]
        have := ih rest hrest
        simp only [List.length_cons]
        omega
      · rw [pySplit_cons_of_not_space c rest (by simpa using hc)]
        have htw : (rest.takeWhile (fun x => !isSpaceChar x)).length
            + (rest.dropWhile (fun x => !isSpaceChar x)).length = rest.length := by
          conv_rhs => rw [← List.takeWhile_append_dropWhile
            (p := fun x => !isSpaceChar x) (l := rest)]
          rw [List.length_append]
        cases hr : pySplit (rest.dropWhile (fun x => !isSpaceChar x)) with
        | nil =>
          rw [joinWords]
          simp only [List.length_cons]
          have := length_takeWhile_le (fun x => !isSpaceChar x) rest
          omega
        | cons v vs =>
          rw [joinWords]
          rw [← hr]
          cases hd : rest.dropWhile (fun x => !isSpaceChar x) with
          | nil =>
            rw [hd] at hr
            simp [pySplit] at hr
          | cons d dtl =>
            have hdspace : isSpaceChar d = true := by
              have := dropWhile_head_not (fun x => !isSpaceChar x) rest d dtl hd
              simpa using this
            rw [pySplit_cons_space d dtl hdspace]
            have hdtl : dtl.length ≤ n := by
              have h1 := length_dropWhile_le (fun x => !isSpaceChar x) rest
              rw [hd] at h1
              simp only [List.length_cons] at h1
              omega
            have := ih dtl hdtl
            have hlen : dtl.length + 1 ≤ rest.length
                - (rest.takeWhile (fun x => !isSpaceChar x)).length := by
              rw [← htw, hd]
              simp only [List.length_cons]
              omega
            simp only [List.length_append, List.length_cons]
            have htwle := length_takeWhile_le (fun x => !isSpaceChar x) rest
            omega

theorem joinWords_pySplit_length_le (s : List Char) :
    (joinWords (pySplit s)).length ≤ s.length :=
  joinWords_pySplit_length_le_aux s.length s (Nat.le_refl _)

theorem pySplit_no_space (s : List Char) (hne : s ≠ [])
    (h : ∀ c ∈ s, isSpaceChar c = false) : pySplit s = [s] := by
  match s with
  | [] => exact absurd rfl hne
  | c :: rest =>
    have hc : isSpaceChar c = false := h c (List.mem_cons_self c rest)
    rw [pySplit_cons_of_not_space c rest hc]
    have htw : rest.takeWhile (fun x => !isSpaceChar x) = rest := by
      rw [List.takeWhile_eq_self_iff]
      intro a ha
      simp [h a (List.mem_cons_of_mem c ha)]
    have hdw : rest.dropWhile (fun x => !isSpaceChar x) = [] := by
      rw [List.dropWhile_eq_nil_iff]
      intro a ha
      simp [h a (List.mem_cons_of_mem c ha)]
    rw [htw, hdw]
    simp [pySplit]

theorem excerptText_long (text : List Char) (mx : Nat) (h : ¬ text.length ≤ mx) :
    excerptText text mx =
      joinWords (if (pySplit (text.take mx)).length > 1
        then (pySplit (text.take mx)).dropLast
        else pySplit (text.take mx)) ++ ellipsis := by
  simp only [excerptText, if_neg h]

/-- Sample block list used by the witnesses: a scripture block followed by a
mainText block. -/
def demoBlocks : List ContentBlock :=
  [⟨some "scripture", some "In the beginning".toList⟩,
   ⟨some "mainText", some "The word became flesh and dwelt among us".toList⟩]

/-- The mainText value of demoBlocks. -/
def demoText : List Char := "The word became flesh and dwelt among us".toList

/-- Sample block list holding a single whitespace-free word. -/
def oneWordBlocks : List ContentBlock :=
  [⟨some "mainText", some "Everlasting".toList⟩]

/-- C1: for every content block list and max_length, if the chosen block's
text has length at most max_length the extractor returns it verbatim;
otherwise it takes the first max_length characters, splits them on whitespace,
drops the last word when more than one word resulted, rejoins with single
spaces and appends "..."; a text of length exactly max_length is returned
unmodified, and a single whitespace-free word longer than max_length is cut
at the character boundary with "..." appended. -/
theorem excerpt_truncation (blocks : List ContentBlock) (mx : Nat)
    (t : List Char) (h : chosenValue blocks = t) :
    (t.length ≤ mx → extract_excerpt blocks mx = t)
    ∧ (mx < t.length → extract_excerpt blocks mx =
        joinWords (if (pySplit (t.take mx)).length > 1
          then (pySplit (t.take mx)).dropLast
          else pySplit (t.take mx)) ++ ellipsis)
    ∧ (t.length = mx → extract_excerpt blocks mx = t)
    ∧ ((∀ c ∈ t, isSpaceChar c = false) → mx < t.length →
        extract_excerpt blocks mx = t.take mx ++ ellipsis) := by
  rw [extract_excerpt_eq, h]
  refine ⟨?_, ?_, ?_, ?_⟩
  · intro hle
    simp only [excerptText, if_pos hle]
  · intro hlt
    exact excerptText_long t mx (by omega)
  · intro heq
    simp only [excerptText, if_pos (Nat.le_of_eq heq)]
  · intro hns hlt
    rw [excerptText_long t mx (by omega)]
    by_cases hmx : mx = 0
    · subst hmx
      simp [pySplit, joinWords]
    · have htlen : (t.take mx).length = mx := by
        rw [List.length_take]
        omega
      have htne : t.take mx ≠ [] := by
        intro hnil
        rw [hnil] at htlen
        simp at htlen
        omega
      have hsp := pySplit_no_space (t.take mx) htne
        (fun c hc => hns c (List.take_subset mx t hc))
      rw [hsp]
      simp [joinWords]

/-- Witness for C1 at concrete inputs: a single 11-character whitespace-free
mainText word with max_length 5 is cut at the character boundary with "..."
appended. -/
theorem excerpt_truncation_witness :
    extract_excerpt oneWordBlocks 5 = ("Everlasting".toList).take 5 ++ ellipsis :=
  (excerpt_truncation oneWordBlocks 5 "Everlasting".toList
    (by decide)).2.2.2 (by decide) (by decide)

/-- C2: the excerpt extractor selects the value of the first block whose type
is mainText or reflection; if no such block exists and the list is non-empty
it selects the first block's value regardless of type; and on an empty list
it returns the empty string. -/
theorem excerpt_selection (blocks : List ContentBlock) (mx : Nat) :
    extract_excerpt blocks mx =
      (match blocks.find? isExcerptBlock with
       | some b => excerptText (b.value.getD []) mx
       | none =>
         match blocks with
         | [] => []
         | b :: _ => excerptText (b.value.getD []) mx) := by
  rw [extract_excerpt_eq]
  cases hf : blocks.find? isExcerptBlock with
  | some b =>
    simp only [chosenValue, hf]
  | none =>
    cases blocks with
    | nil => simp [chosenValue, excerptText]
    | cons b bs => simp only [chosenValue, hf]

/-- C10: whenever the chosen text is strictly longer than max_length, the
returned excerpt ends with the three characters "..." and its total length is
at most max_length + 3. -/
theorem excerpt_bound (blocks : List ContentBlock) (mx : Nat)
    (t : List Char) (h : chosenValue blocks = t) (hlt : mx < t.length) :
    (extract_excerpt blocks mx).length ≤ mx + 3
    ∧ List.IsSuffix ellipsis (extract_excerpt blocks mx) := by
  rw [extract_excerpt_eq, h, excerptText_long t mx (by omega)]
  constructor
  · have h1 : (joinWords (if (pySplit (t.take mx)).length > 1
        then (pySplit (t.take mx)).dropLast
        else pySplit (t.take mx))).length
        ≤ (joinWords (pySplit (t.take mx))).length := by
      by_cases hgt : (pySplit (t.take mx)).length > 1
      · rw [if_pos hgt]
        exact joinWords_dropLast_length_le _
      · rw [if_neg hgt]
    have h2 := joinWords_pySplit_length_le (t.take mx)
    have h3 : (t.take mx).length ≤ mx := by
      rw [List.length_take]
      omega
    have h4 : ellipsis.length = 3 := rfl
    simp only [List.length_append]
    omega
  · exact List.suffix_append _ _

/-- Witness for C10 at a concrete input: a 40-character mainText value with
max_length 10 yields an excerpt of length at most 13 ending in "...". -/
theorem excerpt_bound_witness :
    (extract_excerpt demoBlocks 10).length ≤ 10 + 3
    ∧ List.IsSuffix ellipsis (extract_excerpt demoBlocks 10) :=
  excerpt_bound demoBlocks 10 demoText (by decide) (by decide)

/-- The pagination flags assembled by get_items in enhanced_main.py:
has_next = skip + limit < total, has_previous = skip > 0. -/
def get_items_envelope (skip lim total : Int) : Bool × Bool :=
  (decide (skip + lim < total), decide (skip > 0))

/-- Item categories (models.ItemCategory). -/
inductive ItemCategory where
  | electronics
  | clothing
  | books
  | home
  | sports
  | other
deriving DecidableEq

/-- The string value of an ItemCategory member. -/
def ItemCategory.value : ItemCategory → String
  | .electronics => "electronics"
  | .clothing => "clothing"
  | .books => "books"
  | .home => "home"
  | .sports => "sports"
  | .other => "other"

/-- Article themes (article_models.Theme). -/
inductive Theme where
  | gray
  | warm
  | blue
  | green
  | purple
deriving DecidableEq

/-- The string value of a Theme member. -/
def Theme.value : Theme → String
  | .gray => "gray"
  | .warm => "warm"
  | .blue => "blue"
  | .green => "green"
  | .purple => "purple"

/-- One MongoDB condition as built by the two query builders: equality,
a $gte/$lte range, an $in list, a tokenized $text/$search constraint, or an
$or of case-insensitive $regex substring matches over a list of fields. -/
inductive MongoCond where
  | eqStr (s : String)
  | eqBool (b : Bool)
  | range (gte lte : Option ℚ)
  | inList (l : List String)
  | textSearch (s : String)
  | orRegexI (fields : List String) (pattern : String)
deriving DecidableEq

/-- A MongoDB query document: field (or operator) keys with conditions. -/
abbrev MongoQuery := List (String × MongoCond)

/-- models.ItemFilter: the optional filter fields of the item service. -/
structure ItemFilter where
  category : Option ItemCategory
  min_price : Option ℚ
  max_price : Option ℚ
  is_active : Option Bool
  tags : Option (List String)
  search : Option String
deriving DecidableEq

/-- build_filter_query from enhanced_main.py. Python truthiness is modelled
faithfully: a present category enum is always truthy, min_price, max_price
and is_active are tested against None explicitly, and a present tags list or
search string passes the test only when non-empty. -/
def build_filter_query (f : ItemFilter) : MongoQuery :=
  (match f.category with
   | some c => [("category", MongoCond.eqStr c.value)]
   | none => [])
  ++ (match f.is_active with
      | some b => [("is_active", MongoCond.eqBool b)]
      | none => [])
  ++ (if f.min_price.isSome || f.max_price.isSome then
        [("price", MongoCond.range f.min_price f.max_price)]
      else [])
  ++ (match f.tags with
      | some l => if l.isEmpty then [] else [("tags", MongoCond.inList l)]
      | none => [])
  ++ (match f.search with
      | some s => if s = "" then [] else [("$text", MongoCond.textSearch s)]
      | none => [])

/-- article_models.ArticleFilter as used by build_search_query (the language
field is unused there). -/
structure ArticleFilter where
  theme : Option Theme
  search : Option String
deriving DecidableEq

/-- The four text fields searched by the article service. -/
def articleSearchFields : List String :=
  ["title.tamil", "title.english", "content.tamil.value",
   "content.english.value"]

/-- build_search_query from article_main.py: optional theme equality plus an
$or of case-insensitive regex matches over titles and content values. -/
def build_search_query (f : ArticleFilter) : MongoQuery :=
  (match f.theme with
   | some t => [("theme", MongoCond.eqStr t.value)]
   | none => [])
  ++ (match f.search with
      | some s =>
        if s = "" then []
        else [("$or", MongoCond.orRegexI articleSearchFields s)]
      | none => [])

/-- True when a condition is a case-insensitive substring (regex) match. -/
def condIsSubstring : MongoCond → Bool
  | MongoCond.orRegexI _ _ => true
  | _ => false

/-- Does the query contain any case-insensitive substring constraint? -/
def hasSubstringCond (q : MongoQuery) : Bool :=
  q.any (fun p => condIsSubstring p.2)

/-- An item filter whose only set field is search="abc". -/
def searchOnlyFilter : ItemFilter :=
  ⟨none, none, none, none, none, some "abc"⟩

/-- C3: for all skip ≥ 0, limit ≥ 1, total ≥ 0, the envelope satisfies
has_next = (skip + limit < total) and has_previous = (skip > 0), as a pure
function of the three inputs. -/
theorem pagination_flags (skip lim total : Int)
    (h0 : 0 ≤ skip) (h1 : 1 ≤ lim) (h2 : 0 ≤ total) :
    (get_items_envelope skip lim total).1 = decide (skip + lim < total)
    ∧ (get_items_envelope skip lim total).2 = decide (0 < skip) :=
  ⟨rfl, rfl⟩

/-- Witness for C3 at skip=15, limit=10, total=30. -/
theorem pagination_flags_witness :
    (0 : Int) ≤ 15 ∧ (1 : Int) ≤ 10 ∧ (0 : Int) ≤ 30
    ∧ ((get_items_envelope 15 10 30).1 = decide ((15 : Int) + 10 < 30)
       ∧ (get_items_envelope 15 10 30).2 = decide ((0 : Int) < 15)) :=
  ⟨by decide, by decide, by decide,
   pagination_flags 15 10 30 (by decide) (by decide) (by decide)⟩

/-- The item query builder never emits a substring constraint for any filter:
its search branch uses the tokenized $text operator. -/
theorem build_filter_query_no_substring (f : ItemFilter) :
    hasSubstringCond (build_filter_query f) = false := by
  rcases f with ⟨c, mn, mx, ia, tg, se⟩
  rcases c with _ | c <;> rcases ia with _ | ia <;>
    rcases mn with _ | mn <;> rcases mx with _ | mx <;>
    rcases tg with _ | tg <;> rcases se with _ | se <;>
    simp [hasSubstringCond, build_filter_query, condIsSubstring] <;>
    split_ifs <;> simp [condIsSubstring]

/-- Counterexample to C4: for the item filter whose only set field is
search="abc", the builder emits a single tokenized $text constraint and no
case-insensitive substring constraint over name and description at all. -/
theorem item_search_not_substring :
    build_filter_query searchOnlyFilter
      = [("$text", MongoCond.textSearch "abc")]
    ∧ hasSubstringCond (build_filter_query searchOnlyFilter) = false :=
  ⟨rfl, rfl⟩

/-- C4 amended: with a non-empty search value, the article builder appends
one disjunctive case-insensitive substring ($or of $regex with option i)
constraint over the four Tamil/English title and content fields, conjoined
with the optional theme constraint; the item builder instead carries a
store-native tokenized $text constraint and emits no substring constraint. -/
theorem search_constraints (af : ArticleFilter) (itf : ItemFilter)
    (s : String) (hs : s ≠ "") (ha : af.search = some s)
    (hi : itf.search = some s) :
    build_search_query af =
      (match af.theme with
       | some t => [("theme", MongoCond.eqStr t.value)]
       | none => [])
      ++ [("$or", MongoCond.orRegexI articleSearchFields s)]
    ∧ ("$text", MongoCond.textSearch s) ∈ build_filter_query itf
    ∧ hasSubstringCond (build_filter_query itf) = false := by
  refine ⟨?_, ?_, ?_⟩
  · simp only [build_search_query, ha, if_neg hs]
  · simp only [build_filter_query, hi, if_neg hs]
    simp [List.mem_append]
  · exact build_filter_query_no_substring itf

/-- Witness for C4 amended at theme=blue, search="abc". -/
theorem search_constraints_witness :
    build_search_query ⟨some Theme.blue, some "abc"⟩ =
      [("theme", MongoCond.eqStr Theme.blue.value),
       ("$or", MongoCond.orRegexI articleSearchFields "abc")]
    ∧ ("$text", MongoCond.textSearch "abc") ∈ build_filter_query searchOnlyFilter
    ∧ hasSubstringCond (build_filter_query searchOnlyFilter) = false :=
  search_constraints ⟨some Theme.blue, some "abc"⟩ searchOnlyFilter "abc"
    (by decide) rfl rfl

/-- An item filter whose tags field is present but holds the empty list. -/
def emptyTagsFilter : ItemFilter := ⟨none, none, none, none, some [], none⟩

/-- Counterexample to C8: a filter whose tags field is present but empty
contributes no constraint at all, because the code tests the field with
Python truthiness rather than a None check. -/
theorem present_empty_tags_no_conjunct :
    emptyTagsFilter.tags.isSome = true
    ∧ build_filter_query emptyTagsFilter = [] :=
  ⟨rfl, rfl⟩

/-- C8 amended: each present and truthy field contributes exactly one
conjunct keyed by its field name — a present-but-empty tags list or search
string contributes nothing — absent fields contribute nothing, and the price
conjunct carries exactly the present bounds: both bounds give the closed
interval, a single bound gives that bound only. -/
theorem filter_conjuncts (f : ItemFilter) :
    (build_filter_query f).map Prod.fst =
      (if f.category.isSome then ["category"] else [])
      ++ (if f.is_active.isSome then ["is_active"] else [])
      ++ (if f.min_price.isSome || f.max_price.isSome then ["price"] else [])
      ++ (if (match f.tags with
              | some l => !l.isEmpty
              | none => false) then ["tags"] else [])
      ++ (if (match f.search with
              | some s => decide (s ≠ "")
              | none => false) then ["$text"] else [])
    ∧ (build_filter_query f).filter (fun p => p.1 = "price") =
        (if f.min_price.isSome || f.max_price.isSome then
          [("price", MongoCond.range f.min_price f.max_price)]
        else []) := by
  rcases f with ⟨c, mn, mx, ia, tg, se⟩
  rcases c with _ | c <;> rcases ia with _ | ia <;>
    rcases mn with _ | mn <;> rcases mx with _ | mx <;>
    rcases tg with _ | tg <;> rcases se with _ | se <;>
    constructor <;>
    simp [build_filter_query] <;>
    split_ifs <;>
    simp_all

/-- A stored item document. Keys the code reads with dict.get are Options;
oid is the _id value already rendered by str(). -/
structure ItemDoc where
  oid : String
  name : String
  description : Option String
  price : ℚ
  quantity : Int
  category : Option String
  tags : Option (List String)
  is_active : Option Bool
  created_at : Option Nat
  updated_at : Option Nat
deriving DecidableEq

/-- The response dict produced by item_helper. -/
structure ItemOut where
  id : String
  name : String
  description : Option String
  price : ℚ
  quantity : Int
  category : String
  tags : List String
  is_active : Bool
  created_at : Nat
  updated_at : Nat
deriving DecidableEq

/-- item_helper from enhanced_main.py; now is the value datetime.utcnow()
returns at the moment of the call, used as the default for the timestamp
fields absent from the document. -/
def item_helper (item : ItemDoc) (now : Nat) : ItemOut :=
  { id := item.oid
    name := item.name
    description := item.description
    price := item.price
    quantity := item.quantity
    category := item.category.getD "other"
    tags := item.tags.getD []
    is_active := item.is_active.getD true
    created_at := item.created_at.getD now
    updated_at := item.updated_at.getD now }

/-- A stored user document. -/
structure UserDoc where
  oid : String
  username : String
  email : String
  full_name : Option String
  role : Option String
  is_active : Option Bool
  created_at : Option Nat
  updated_at : Option Nat
deriving DecidableEq

/-- The response dict produced by user_helper. -/
structure UserOut where
  id : String
  username : String
  email : String
  full_name : Option String
  role : String
  is_active : Bool
  created_at : Nat
  updated_at : Nat
deriving DecidableEq

/-- user_helper from enhanced_main.py. -/
def user_helper (user : UserDoc) (now : Nat) : UserOut :=
  { id := user.oid
    username := user.username
    email := user.email
    full_name := user.full_name
    role := user.role.getD "user"
    is_active := user.is_active.getD true
    created_at := user.created_at.getD now
    updated_at := user.updated_at.getD now }

/-- A stored article document: id, bilingual title, theme, bilingual content
block lists, optional timestamps. -/
structure ArticleDoc where
  aid : String
  title : String × String
  theme : String
  content : List ContentBlock × List ContentBlock
  created_at : Option Nat
  updated_at : Option Nat
deriving DecidableEq

/-- The response dict produced by article_helper. -/
structure ArticleOut where
  id : String
  title : String × String
  theme : String
  content : List ContentBlock × List ContentBlock
  created_at : Nat
  updated_at : Nat
deriving DecidableEq

/-- article_helper from article_main.py. -/
def article_helper (article : ArticleDoc) (now : Nat) : ArticleOut :=
  { id := article.aid
    title := article.title
    theme := article.theme
    content := article.content
    created_at := article.created_at.getD now
    updated_at := article.updated_at.getD now }

/-- A legacy item document lacking category, tags, is_active and both
timestamps. -/
def legacyItemDoc : ItemDoc :=
  { oid := "64b0c0ffee"
    name := "lamp"
    description := none
    price := 5
    quantity := 2
    category := none
    tags := none
    is_active := none
    created_at := none
    updated_at := none }

/-- A legacy user document lacking role. -/
def legacyUserDoc : UserDoc :=
  { oid := "64b0c0ffef"
    username := "reader"
    email := "reader@example.com"
    full_name := none
    role := none
    is_active := none
    created_at := none
    updated_at := none }

/-- An item document carrying every optional field. -/
def fullItemDoc : ItemDoc :=
  { oid := "64b0c0fff0"
    name := "candle"
    description := some "wax"
    price := 3
    quantity := 9
    category := some "home"
    tags := some ["light"]
    is_active := some true
    created_at := some 100
    updated_at := some 200 }

/-- An article document carrying both timestamps. -/
def fullArticleDoc : ArticleDoc :=
  { aid := "john-1"
    title := ("tamil title", "english title")
    theme := "blue"
    content := (demoBlocks, demoBlocks)
    created_at := some 100
    updated_at := some 200 }

/-- Counterexample to C5: projecting a stored document that lacks created_at
and updated_at at two different clock readings yields different outputs, so
two applications of the mapper to the same input document are not always
identical. -/
theorem projection_not_time_invariant :
    item_helper legacyItemDoc 0 ≠ item_helper legacyItemDoc 1 := by
  intro h
  have := congrArg ItemOut.created_at h
  simp [item_helper, legacyItemDoc] at this

/-- C5 amended: each projection mapper is a pure function of the document
and the clock reading passed for datetime.utcnow(); on any document that
contains both created_at and updated_at the clock is unused, so two
applications at any two times yield identical output (items and articles). -/
theorem projection_deterministic (d : ItemDoc) (a : ArticleDoc) (t1 t2 : Nat)
    (hc : d.created_at.isSome = true) (hu : d.updated_at.isSome = true)
    (hac : a.created_at.isSome = true) (hau : a.updated_at.isSome = true) :
    item_helper d t1 = item_helper d t2
    ∧ article_helper a t1 = article_helper a t2 := by
  obtain ⟨c, hcv⟩ := Option.isSome_iff_exists.mp hc
  obtain ⟨u, huv⟩ := Option.isSome_iff_exists.mp hu
  obtain ⟨ac, hacv⟩ := Option.isSome_iff_exists.mp hac
  obtain ⟨au, hauv⟩ := Option.isSome_iff_exists.mp hau
  constructor <;> simp [item_helper, article_helper, hcv, huv, hacv, hauv]

/-- Witness for C5 amended, on documents carrying both timestamps, projected
at times 0 and 99. -/
theorem projection_deterministic_witness :
    fullItemDoc.created_at.isSome = true
    ∧ fullItemDoc.updated_at.isSome = true
    ∧ fullArticleDoc.created_at.isSome = true
    ∧ fullArticleDoc.updated_at.isSome = true
    ∧ (item_helper fullItemDoc 0 = item_helper fullItemDoc 99
       ∧ article_helper fullArticleDoc 0 = article_helper fullArticleDoc 99) :=
  ⟨rfl, rfl, rfl, rfl,
   projection_deterministic fullItemDoc fullArticleDoc 0 99 rfl rfl rfl rfl⟩

/-- C7: an item document lacking category, tags and is_active projects to
category = "other", tags = [], is_active = true; a user document lacking
role projects to role = "user"; and the remaining fields are copied
verbatim, as are the optional fields whenever they are present. -/
theorem projection_defaults (d : ItemDoc) (u : UserDoc) (now : Nat)
    (hc : d.category = none) (ht : d.tags = none) (ha : d.is_active = none)
    (hr : u.role = none) :
    ((item_helper d now).category = "other"
     ∧ (item_helper d now).tags = []
     ∧ (item_helper d now).is_active = true
     ∧ (user_helper u now).role = "user")
    ∧ ((item_helper d now).id = d.oid
       ∧ (item_helper d now).name = d.name
       ∧ (item_helper d now).description = d.description
       ∧ (item_helper d now).price = d.price
       ∧ (item_helper d now).quantity = d.quantity)
    ∧ (∀ v, d.created_at = some v → (item_helper d now).created_at = v)
    ∧ (∀ v, d.updated_at = some v → (item_helper d now).updated_at = v) := by
  refine ⟨⟨?_, ?_, ?_, ?_⟩, ⟨rfl, rfl, rfl, rfl, rfl⟩, ?_, ?_⟩
  · simp [item_helper, hc]
  · simp [item_helper, ht]
  · simp [item_helper, ha]
  · simp [user_helper, hr]
  · intro v hv
    simp [item_helper, hv]
  · intro v hv
    simp [item_helper, hv]

/-- Witness for C7, on the legacy item and user documents at time 7. -/
theorem projection_defaults_witness :
    (item_helper legacyItemDoc 7).category = "other"
    ∧ (item_helper legacyItemDoc 7).tags = []
    ∧ (item_helper legacyItemDoc 7).is_active = true
    ∧ (user_helper legacyUserDoc 7).role = "user" :=
  (projection_defaults legacyItemDoc legacyUserDoc 7 rfl rfl rfl rfl).1

/-- A Python exception as the handlers see it: a FastAPI HTTPException with
status and detail, or the bson InvalidId error raised by the ObjectId
constructor on a malformed identifier. -/
inductive PyErr where
  | http (status : Nat) (detail : String)
  | invalidId
deriving DecidableEq

/-- models.ItemUpdate: every field optional. -/
structure ItemUpdate where
  name : Option String
  description : Option String
  price : Option ℚ
  quantity : Option Int
  category : Option ItemCategory
  tags : Option (List String)
  is_active : Option Bool
deriving DecidableEq

/-- One $set entry of the partial update document. -/
inductive UpdateField where
  | name (v : String)
  | description (v : String)
  | price (v : ℚ)
  | quantity (v : Int)
  | category (v : ItemCategory)
  | tags (v : List String)
  | is_active (v : Bool)
  | updated_at (t : Nat)
deriving DecidableEq

/-- The update_data comprehension of update_item: the fields of the patch
that are not None, in declaration order. -/
def update_data (u : ItemUpdate) : List UpdateField :=
  (match u.name with | some v => [UpdateField.name v] | none => [])
  ++ (match u.description with
      | some v => [UpdateField.description v]
      | none => [])
  ++ (match u.price with | some v => [UpdateField.price v] | none => [])
  ++ (match u.quantity with | some v => [UpdateField.quantity v] | none => [])
  ++ (match u.category with | some v => [UpdateField.category v] | none => [])
  ++ (match u.tags with | some v => [UpdateField.tags v] | none => [])
  ++ (match u.is_active with
      | some v => [UpdateField.is_active v]
      | none => [])

/-- The body of the try block of update_item in enhanced_main.py: reject an
empty patch with 400 "No fields to update", then stamp updated_at and send
the $set document; idOk models whether ObjectId(item_id) parses and modified
models modified_count == 1. On success the value is the $set document that
was applied. -/
def update_item_body (u : ItemUpdate) (now : Nat) (idOk modified : Bool) :
    Except PyErr (List UpdateField) :=
  if (update_data u).isEmpty then
    Except.error (PyErr.http 400 "No fields to update")
  else if idOk = false then
    Except.error PyErr.invalidId
  else if modified then
    Except.ok (update_data u ++ [UpdateField.updated_at now])
  else
    Except.error (PyErr.http 404 "Item not found")

/-- update_item with its blanket except clause: every exception raised inside
the try block — including the HTTPExceptions the handler itself raised — is
replaced by 400 "Invalid item ID". -/
def update_item (u : ItemUpdate) (now : Nat) (idOk modified : Bool) :
    Except PyErr (List UpdateField) :=
  match update_item_body u now idOk modified with
  | Except.ok v => Except.ok v
  | Except.error _ => Except.error (PyErr.http 400 "Invalid item ID")

/-- The all-unset patch. -/
def emptyUpdate : ItemUpdate := ⟨none, none, none, none, none, none, none⟩

/-- A patch setting only the price field. -/
def priceOnlyUpdate : ItemUpdate :=
  ⟨none, none, some 7, none, none, none, none⟩

/-- C6: the empty patch is rejected inside the handler with detail
"No fields to update", but the blanket except clause replaces that error, so
the caller is served 400 "Invalid item ID" instead of the descriptive
message; a one-field patch maps to exactly that field plus a refreshed
updated_at and nothing else. -/
theorem patch_mapping_surfaced :
    update_item_body emptyUpdate 5 true true
      = Except.error (PyErr.http 400 "No fields to update")
    ∧ update_item emptyUpdate 5 true true
      = Except.error (PyErr.http 400 "Invalid item ID")
    ∧ update_item priceOnlyUpdate 5 true true
      = Except.ok [UpdateField.price 7, UpdateField.updated_at 5] :=
  ⟨rfl, rfl, rfl⟩

/-- The body of the try block of get_item in enhanced_main.py. -/
def get_item_body (idOk : Bool) (stored : Option ItemDoc) (now : Nat) :
    Except PyErr ItemOut :=
  if idOk = false then
    Except.error PyErr.invalidId
  else
    match stored with
    | some it => Except.ok (item_helper it now)
    | none => Except.error (PyErr.http 404 "Item not found")

/-- get_item with its blanket except clause: every exception raised inside
the try block — including the 404 the handler itself raised — is replaced by
400 "Invalid item ID". main.py carries the identical handler. -/
def get_item (idOk : Bool) (stored : Option ItemDoc) (now : Nat) :
    Except PyErr ItemOut :=
  match get_item_body idOk stored now with
  | Except.ok v => Except.ok v
  | Except.error _ => Except.error (PyErr.http 400 "Invalid item ID")

/-- A single-quote character, used in the article not-found message. -/
def sq : String := String.singleton (Char.ofNat 39)

/-- get_article_by_id from article_main.py: no blanket except clause; a
missing id surfaces 404 with a descriptive message naming the id. -/
def get_article_by_id (article_id : String) (stored : Option ArticleDoc)
    (now : Nat) : Except PyErr ArticleOut :=
  match stored with
  | none => Except.error (PyErr.http 404
      ("Article with id " ++ sq ++ article_id ++ sq ++ " not found"))
  | some a => Except.ok (article_helper a now)

/-- C9: a well-formed item id that matches no stored record is served
400 "Invalid item ID" — the internal 404 "Item not found" raise is swallowed
by the blanket except clause — while the article service surfaces the
specified 404 with a descriptive message; a matching id succeeds with the
projected record in both services. -/
theorem get_by_id_surfaced :
    get_item_body true none 3 = Except.error (PyErr.http 404 "Item not found")
    ∧ get_item true none 3 = Except.error (PyErr.http 400 "Invalid item ID")
    ∧ get_item true (some fullItemDoc) 3 = Except.ok (item_helper fullItemDoc 3)
    ∧ get_article_by_id "john-1" none 3
        = Except.error (PyErr.http 404
            ("Article with id " ++ sq ++ "john-1" ++ sq ++ " not found"))
    ∧ get_article_by_id "john-1" (some fullArticleDoc) 3
        = Except.ok (article_helper fullArticleDoc 3) :=
  ⟨rfl, rfl, rfl, rfl, rfl⟩

end BibleArticles
